import Mathlib

/-!
Verification development for the server request builder
(`src/server/request.ts` of the generative-ai-js repository).

The TypeScript source is shallowly embedded below:

* JavaScript `undefined`-able values become `Option`.
* Thrown `GoogleGenerativeAIRequestInputError`s become `Except String`.
* The platform `Headers` collection becomes a list of name/value pairs;
  the platform normalizes header names to lowercase both when a record is
  converted via `new Headers(record)` and when entries of an existing
  `Headers` are iterated, so the embedding applies `lowerName` to the
  names of custom header entries before they are merged.
* The platform `URL` object becomes a record holding the serialized
  origin-plus-pathname part (`href`) and the list of appended search
  parameters.  WHATWG normalization (case-folding of scheme and host,
  percent-encoding of parameter values) is not modeled: parsing is treated
  as the identity on the composed string when the string has the shape
  `scheme://rest`, and as a thrown URL-format error (`none`) otherwise.
-/

set_option autoImplicit false

namespace GenAIRequest

/-- Modelled from the spec: `RpcTask` is declared in `server/constants.ts`,
which is not among the provided sources.  The spec lists the six task
values UPLOAD, LIST, GET, DELETE, UPDATE, CREATE. -/
inductive RpcTask where
  | UPLOAD
  | LIST
  | GET
  | DELETE
  | UPDATE
  | CREATE
deriving DecidableEq

/-- The observable state of a platform `AbortSignal`: whether it is
currently aborted. -/
structure AbortSignalState where
  aborted : Bool
deriving DecidableEq

/-- Modelled from the spec: `RequestOptions` / `SingleRequestOptions` are
declared in `types`, not among the provided sources.  The spec lists the
recognized options: apiVersion, baseUrl, customHeaders, timeout, signal.
`customHeaders` (a `Headers` or a header record) is embedded as a list of
name/value pairs. -/
structure SingleRequestOptions where
  apiVersion : Option String := none
  baseUrl : Option String := none
  customHeaders : Option (List (String × String)) := none
  timeout : Option Int := none
  signal : Option AbortSignalState := none
deriving DecidableEq

/-- Modelled from the spec: the default host constant (an external
collaborator exported by `requests/request.ts`, not among the provided
sources). -/
def DEFAULT_BASE_URL : String := "https://generativelanguage.googleapis.com"

/-- Modelled from the spec: the default API version constant (an external
collaborator exported by `requests/request.ts`, not among the provided
sources). -/
def DEFAULT_API_VERSION : String := "v1beta"

/-- JavaScript `a || b` on optional strings: the default is used when the
option is absent (`undefined`) or the empty string (falsy). -/
def jsOr (v : Option String) (d : String) : String :=
  match v with
  | some s => if s = "" then d else s
  | none => d

/-- The lowercase normalization the platform `Headers` collection applies
to header names (ASCII byte-lowercase, per the fetch specification),
applied both by `new Headers(record)` and on insertion into an existing
`Headers`. -/
def lowerName (s : String) : String :=
  String.mk (s.data.map Char.toLower)

/-- The state of a platform `URL` object: `href` is the serialization of
everything before the query (origin plus pathname) and `params` is the
list of search parameters, in insertion order. -/
structure URLState where
  href : String
  params : List (String × String)
deriving DecidableEq

/-- Whether a character list contains the scheme separator "://". -/
def hasSchemeSep : List Char → Bool
  | ':' :: '/' :: '/' :: _ => true
  | _ :: rest => hasSchemeSep rest
  | [] => false

/-- Whether a composed string is accepted by `new URL(...)`: it must have
the shape `scheme://rest` with a nonempty scheme.  Host and scheme
character validation of the platform parser is not modeled. -/
def validAbsoluteURL (s : String) : Bool :=
  match s.data with
  | ':' :: '/' :: '/' :: _ => false
  | cs => hasSchemeSep cs

/-- `new URL(s)` for a composed string without a query part: the state
keeps the string itself, or `none` when the platform parser would throw a
URL-format error. -/
def newURL (s : String) : Option URLState :=
  if validAbsoluteURL s then some { href := s, params := [] } else none

/-- Serialization of the search parameters, as `URL.toString` renders
them: empty when there are none, otherwise `?k=v&k=v&...` in insertion
order (percent-encoding not modeled). -/
def renderQuery (ps : List (String × String)) : String :=
  if ps.isEmpty then ""
  else "?" ++ String.intercalate "&" (ps.map (fun p => p.1 ++ "=" ++ p.2))

/-- `URL.toString()`: origin plus pathname followed by the serialized
query. -/
def renderURL (st : URLState) : String :=
  st.href ++ renderQuery st.params

/-- The `taskToMethod` lookup table (request.ts lines 28-35). -/
def taskToMethod : RpcTask → String
  | .UPLOAD => "POST"
  | .LIST => "GET"
  | .GET => "GET"
  | .DELETE => "DELETE"
  | .UPDATE => "PATCH"
  | .CREATE => "POST"

/-- The `ServerRequestUrl` class (request.ts lines 37-56): task, apiKey,
optional request options, and the protected `_url` field.  `_url` is
`none` when the field was never assigned (in TS it is then `undefined`;
every operation reading it would throw a TypeError, embedded below as
`none` results). -/
structure ServerRequestUrl where
  task : RpcTask
  apiKey : String
  requestOptions : Option SingleRequestOptions := none
  _url : Option URLState := none
deriving DecidableEq

/-- The `ServerRequestUrl` base constructor (request.ts lines 39-43): it
stores the three arguments and does not assign `_url`. -/
def ServerRequestUrl.base (task : RpcTask) (apiKey : String)
    (requestOptions : Option SingleRequestOptions := none) : ServerRequestUrl :=
  { task := task, apiKey := apiKey, requestOptions := requestOptions, _url := none }

/-- `appendPath` (request.ts lines 45-47): `this._url.pathname =
this._url.pathname + "/" + path`.  Appending to the pathname is appending
to the origin-plus-pathname serialization, since the pathname is its
suffix.  `none` when `_url` was never assigned. -/
def ServerRequestUrl.appendPath (u : ServerRequestUrl) (path : String) :
    Option ServerRequestUrl :=
  u._url.map (fun st => { u with _url := some { st with href := st.href ++ "/" ++ path } })

/-- `appendParam` (request.ts lines 49-51): `this._url.searchParams.append(key, value)`.
`none` when `_url` was never assigned. -/
def ServerRequestUrl.appendParam (u : ServerRequestUrl) (key value : String) :
    Option ServerRequestUrl :=
  u._url.map (fun st => { u with _url := some { st with params := st.params ++ [(key, value)] } })

/-- `toString` (request.ts lines 53-55): `this._url.toString()`.  `none`
when `_url` was never assigned. -/
def ServerRequestUrl.toString (u : ServerRequestUrl) : Option String :=
  u._url.map renderURL

/-- The `CachedContentUrl` constructor (request.ts lines 58-71): resolves
apiVersion and baseUrl with JavaScript `||` defaulting, composes
`baseUrl + "/" + apiVersion + "/cachedContents"`, and parses it.  `none`
when the platform URL parser would throw. -/
def CachedContentUrl.make (task : RpcTask) (apiKey : String)
    (requestOptions : Option SingleRequestOptions := none) : Option ServerRequestUrl :=
  let apiVersion := jsOr (requestOptions.bind (·.apiVersion)) DEFAULT_API_VERSION
  let baseUrl := jsOr (requestOptions.bind (·.baseUrl)) DEFAULT_BASE_URL
  let initialUrl := baseUrl ++ ("/" ++ apiVersion ++ "/cachedContents")
  (newURL initialUrl).map
    (fun st =>
      { task := task, apiKey := apiKey, requestOptions := requestOptions, _url := some st })

/-- The `FilesRequestUrl` constructor (request.ts lines 73-89): like
`CachedContentUrl.make` but with resource path `files`, and an `/upload`
segment appended to the base URL first when the task is UPLOAD. -/
def FilesRequestUrl.make (task : RpcTask) (apiKey : String)
    (requestOptions : Option SingleRequestOptions := none) : Option ServerRequestUrl :=
  let apiVersion := jsOr (requestOptions.bind (·.apiVersion)) DEFAULT_API_VERSION
  let baseUrl := jsOr (requestOptions.bind (·.baseUrl)) DEFAULT_BASE_URL
  let initialUrl := baseUrl
  let initialUrl := if task = RpcTask.UPLOAD then initialUrl ++ "/upload" else initialUrl
  let initialUrl := initialUrl ++ ("/" ++ apiVersion ++ "/files")
  (newURL initialUrl).map
    (fun st =>
      { task := task, apiKey := apiKey, requestOptions := requestOptions, _url := some st })

/-- A `Headers` collection as a list of name/value entries. -/
abbrev MHeaders := List (String × String)

/-- The custom-header merging loop of `getHeaders` (request.ts lines
110-122): entries are appended one by one; an entry whose (already
lowercased) name is a reserved name makes the whole call throw a
`GoogleGenerativeAIRequestInputError` with the message the source
builds. -/
def mergeCustom (headers : MHeaders) : List (String × String) → Except String MHeaders
  | [] => Except.ok headers
  | (headerName, headerValue) :: rest =>
    if headerName = "x-goog-api-key" then
      Except.error ("Cannot set reserved header name " ++ headerName)
    else if headerName = "x-goog-api-client" then
      Except.error ("Header name " ++ headerName ++ " can only be set using the apiClient field")
    else
      mergeCustom (headers ++ [(headerName, headerValue)]) rest

/-- `getHeaders` (request.ts lines 91-125).  The client-identity header
value is produced by the external collaborator `getClientHeaders`
(exported by `requests/request.ts`, not among the provided sources), so it
is taken here as a function parameter and applied to
`url.requestOptions` exactly as the source does.  When `customHeaders` is
supplied it is iterated as platform `Headers` entries, whose names are
lowercase: a supplied record is lowercased by `new Headers(record)`, and a
supplied `Headers` already normalized its names on insertion; the
embedding lowercases the names at this point.  The `new Headers(...)`
conversion failure branch (invalid header characters) is not modeled. -/
def getHeaders (getClientHeaders : Option SingleRequestOptions → String)
    (url : ServerRequestUrl) : Except String MHeaders :=
  let headers : MHeaders :=
    [("x-goog-api-client", getClientHeaders url.requestOptions),
     ("x-goog-api-key", url.apiKey)]
  match url.requestOptions.bind (·.customHeaders) with
  | none => Except.ok headers
  | some customHeaders =>
      mergeCustom headers (customHeaders.map (fun p => (lowerName p.1, p.2)))

/-- The custom header entries carried by a URL object's request options
(empty when absent). -/
def customHeadersOf (u : ServerRequestUrl) : List (String × String) :=
  (u.requestOptions.bind (·.customHeaders)).getD []

/-- Whether `requestOptions?.timeout >= 0` holds in JavaScript: false when
the options or the timeout are absent (`undefined >= 0` is false). -/
def timeoutNonneg (requestOptions : Option SingleRequestOptions) : Bool :=
  match requestOptions.bind (·.timeout) with
  | some t => decide (0 ≤ t)
  | none => false

/-- The cancellation signal `getSignal` returns: the state of the fresh
`AbortController`'s signal at the moment `getSignal` returns, plus what
was wired to abort it later. -/
structure ComposedSignal where
  /-- Whether the returned signal is aborted when `getSignal` returns.
  The controller is freshly created and `controller.abort()` is only ever
  invoked from the `setTimeout` callback or from the `"abort"` event
  listener, neither of which can run before `getSignal` returns; an
  `"abort"` listener added to an already-aborted external signal is never
  invoked (the event fired before registration), and the source never
  reads `requestOptions.signal.aborted`.  Hence this field is `false` for
  every value `getSignal` produces. -/
  abortedAtReturn : Bool
  /-- The delay of the `setTimeout(() => controller.abort(), timeout)`
  call, when one was scheduled. -/
  timeoutScheduled : Option Int
  /-- Whether an `"abort"` listener aborting the controller was added to
  the external signal. -/
  listensToExternal : Bool
deriving DecidableEq

/-- `getSignal` (request.ts lines 154-167): when an external signal is
present or a nonnegative timeout is present, create an `AbortController`,
schedule the timeout abort when `timeout >= 0`, register an abort listener
on the external signal when present, and return the controller's signal;
otherwise fall through and return `undefined`. -/
def getSignal (requestOptions : Option SingleRequestOptions) : Option ComposedSignal :=
  if (requestOptions.bind (·.signal)).isSome || timeoutNonneg requestOptions then
    some
      { abortedAtReturn := false
        timeoutScheduled :=
          if timeoutNonneg requestOptions then requestOptions.bind (·.timeout) else none
        listensToExternal := (requestOptions.bind (·.signal)).isSome }
  else
    none

/-- A request body: a `Blob` (contents abstracted to a string) or a
string. -/
inductive ReqBody where
  | blob (data : String)
  | str (s : String)
deriving DecidableEq

/-- JavaScript truthiness of a body value: a `Blob` object is always
truthy; a string is truthy exactly when nonempty. -/
def bodyTruthy : ReqBody → Bool
  | .blob _ => true
  | .str s => !s.isEmpty

/-- The `RequestInit` descriptor `makeServerRequest` assembles: method,
headers, optional body, optional signal (absent fields are `none`). -/
structure RequestInitM where
  method : String
  headers : MHeaders
  body : Option ReqBody := none
  signal : Option ComposedSignal := none
deriving DecidableEq

/-- Modelled from the spec: `makeRequest` (exported by
`requests/request.ts`, not among the provided sources) is the generic
request-dispatch collaborator: it invokes the transport function with the
url string and the request descriptor and returns its result unchanged. -/
def makeRequest {ρ : Type} (url : String) (requestInit : RequestInitM)
    (fetchFn : String → RequestInitM → ρ) : ρ :=
  fetchFn url requestInit

/-- `makeServerRequest` (request.ts lines 127-148): build the descriptor
with the method looked up from `taskToMethod` and the given headers, add
the body only when it is supplied and truthy (`if (body)`), add the signal
when `getSignal` computed one, then dispatch through `makeRequest` with
the stringified URL.  `none` when `url.toString()` would throw on an
unassigned `_url`. -/
def makeServerRequest {ρ : Type} (url : ServerRequestUrl) (headers : MHeaders)
    (body : Option ReqBody) (fetchFn : String → RequestInitM → ρ) : Option ρ :=
  let requestInit : RequestInitM := { method := taskToMethod url.task, headers := headers }
  let requestInit :=
    match body with
    | some b => if bodyTruthy b then { requestInit with body := some b } else requestInit
    | none => requestInit
  let requestInit :=
    match getSignal url.requestOptions with
    | some s => { requestInit with signal := some s }
    | none => requestInit
  (ServerRequestUrl.toString url).map (fun s => makeRequest s requestInit fetchFn)

/-! ## Helper lemmas about the header merging loop -/

theorem mergeCustom_ok (hs : MHeaders) (l : List (String × String))
    (h : ∀ p ∈ l, p.1 ≠ "x-goog-api-key" ∧ p.1 ≠ "x-goog-api-client") :
    mergeCustom hs l = Except.ok (hs ++ l) := by
  revert h
  induction l generalizing hs with
  | nil => intro h; simp [mergeCustom]
  | cons p rest ih =>
    intro h
    obtain ⟨pn, pv⟩ := p
    have hp := h (pn, pv) (List.mem_cons_self _ _)
    simp only [mergeCustom, if_neg hp.1, if_neg hp.2]
    rw [ih (hs ++ [(pn, pv)]) (fun q hq => h q (List.mem_cons_of_mem _ hq))]
    simp

theorem mergeCustom_error (hs : MHeaders) (l : List (String × String)) (n v : String)
    (hmem : (n, v) ∈ l)
    (hres : n = "x-goog-api-key" ∨ n = "x-goog-api-client") :
    ∃ e, mergeCustom hs l = Except.error e := by
  revert hmem
  induction l generalizing hs with
  | nil => intro hmem; cases hmem
  | cons p rest ih =>
    intro hmem
    obtain ⟨pn, pv⟩ := p
    by_cases h1 : pn = "x-goog-api-key"
    · refine ⟨"Cannot set reserved header name " ++ pn, ?_⟩
      simp only [mergeCustom]
      rw [if_pos h1]
    · by_cases h2 : pn = "x-goog-api-client"
      · refine ⟨"Header name " ++ pn ++ " can only be set using the apiClient field", ?_⟩
        simp only [mergeCustom]
        rw [if_neg h1, if_pos h2]
      · have hmem' : (n, v) ∈ rest := by
          rcases List.mem_cons.mp hmem with heq | hm
          · exfalso
            rw [Prod.mk.injEq] at heq
            rcases hres with hr | hr
            · exact h1 (heq.1 ▸ hr)
            · exact h2 (heq.1 ▸ hr)
          · exact hm
        obtain ⟨e, he⟩ := ih (hs ++ [(pn, pv)]) hmem'
        refine ⟨e, ?_⟩
        simp only [mergeCustom, if_neg h1, if_neg h2]
        exact he

theorem getHeaders_eq (gch : Option SingleRequestOptions → String) (u : ServerRequestUrl) :
    getHeaders gch u =
      mergeCustom
        [("x-goog-api-client", gch u.requestOptions), ("x-goog-api-key", u.apiKey)]
        ((customHeadersOf u).map (fun p => (lowerName p.1, p.2))) := by
  unfold getHeaders customHeadersOf
  cases u.requestOptions.bind (fun ro => ro.customHeaders) with
  | none => simp [mergeCustom]
  | some ch => simp

/-! ## Claim theorems -/

/-- C3: for every task in {UPLOAD, LIST, GET, DELETE, UPDATE, CREATE},
the HTTP method resolved by the `taskToMethod` mapping is exactly POST,
GET, GET, DELETE, PATCH, POST respectively. -/
theorem c3_taskToMethod_mapping :
    taskToMethod RpcTask.UPLOAD = "POST" ∧
    taskToMethod RpcTask.LIST = "GET" ∧
    taskToMethod RpcTask.GET = "GET" ∧
    taskToMethod RpcTask.DELETE = "DELETE" ∧
    taskToMethod RpcTask.UPDATE = "PATCH" ∧
    taskToMethod RpcTask.CREATE = "POST" :=
  ⟨rfl, rfl, rfl, rfl, rfl, rfl⟩

/-- C1: if any supplied custom header name equals a reserved name
("x-goog-api-key" or "x-goog-api-client"), `getHeaders` throws a
`GoogleGenerativeAIRequestInputError` and returns no header
collection. -/
theorem c1_reserved_header_rejected (gch : Option SingleRequestOptions → String)
    (u : ServerRequestUrl) (n v : String)
    (hmem : (n, v) ∈ customHeadersOf u)
    (hres : n = "x-goog-api-key" ∨ n = "x-goog-api-client") :
    ∃ e, getHeaders gch u = Except.error e := by
  rw [getHeaders_eq]
  have hlow : lowerName n = n := by
    rcases hres with rfl | rfl <;> decide
  have hmem2 : (n, v) ∈ (customHeadersOf u).map (fun p => (lowerName p.1, p.2)) := by
    refine List.mem_map.mpr ⟨(n, v), hmem, ?_⟩
    rw [hlow]
  exact mergeCustom_error _ _ n v hmem2 hres

/-- C1 witness: custom headers containing the reserved name
"x-goog-api-key" make `getHeaders` fail. -/
theorem c1_witness :
    ∃ e,
      getHeaders (fun _ => "genai-js")
        { task := RpcTask.GET, apiKey := "k",
          requestOptions := some { customHeaders := some [("x-goog-api-key", "x")] },
          _url := none } = Except.error e :=
  c1_reserved_header_rejected (fun _ => "genai-js") _ "x-goog-api-key" "x"
    (by decide) (Or.inl rfl)

/-- C10: name normalization to lowercase during the `Headers` conversion
makes the reserved-name rejection case-insensitive: any case variant of a
reserved header name supplied in custom headers makes `getHeaders`
throw, so no case variant can reach the result. -/
theorem c10_reserved_header_case_insensitive (gch : Option SingleRequestOptions → String)
    (u : ServerRequestUrl) (n v : String)
    (hmem : (n, v) ∈ customHeadersOf u)
    (hres : lowerName n = "x-goog-api-key" ∨ lowerName n = "x-goog-api-client") :
    ∃ e, getHeaders gch u = Except.error e := by
  rw [getHeaders_eq]
  have hmem2 : (lowerName n, v) ∈ (customHeadersOf u).map (fun p => (lowerName p.1, p.2)) :=
    List.mem_map.mpr ⟨(n, v), hmem, rfl⟩
  exact mergeCustom_error _ _ (lowerName n) v hmem2 hres

/-- C10 witness: the mixed-case variant "X-Goog-Api-Key" is also
rejected. -/
theorem c10_witness :
    ∃ e,
      getHeaders (fun _ => "genai-js")
        { task := RpcTask.GET, apiKey := "k",
          requestOptions := some { customHeaders := some [("X-Goog-Api-Key", "x")] },
          _url := none } = Except.error e :=
  c10_reserved_header_case_insensitive (fun _ => "genai-js") _ "X-Goog-Api-Key" "x"
    (by decide) (Or.inl (by decide))

/-- C7: when no custom header name is a reserved name, `getHeaders`
returns a collection containing the client-identity header, the API-key
header set to the URL's apiKey, and every supplied custom header
name/value pair (with its name in the lowercase form the platform
`Headers` stores). -/
theorem c7_headers_complete (gch : Option SingleRequestOptions → String)
    (u : ServerRequestUrl)
    (h : ∀ p ∈ customHeadersOf u,
      lowerName p.1 ≠ "x-goog-api-key" ∧ lowerName p.1 ≠ "x-goog-api-client") :
    ∃ hs, getHeaders gch u = Except.ok hs ∧
      ("x-goog-api-client", gch u.requestOptions) ∈ hs ∧
      ("x-goog-api-key", u.apiKey) ∈ hs ∧
      ∀ p ∈ customHeadersOf u, (lowerName p.1, p.2) ∈ hs := by
  have hok :
      getHeaders gch u =
        Except.ok
          ([("x-goog-api-client", gch u.requestOptions), ("x-goog-api-key", u.apiKey)] ++
            (customHeadersOf u).map (fun p => (lowerName p.1, p.2))) := by
    rw [getHeaders_eq]
    refine mergeCustom_ok _ _ (fun p hp => ?_)
    obtain ⟨q, hq, rfl⟩ := List.mem_map.mp hp
    exact h q hq
  refine ⟨_, hok, by simp, by simp, fun p hp => ?_⟩
  refine List.mem_append_right _ ?_
  exact List.mem_map.mpr ⟨p, hp, rfl⟩

/-- C7 witness: with the single custom header `foo: bar`, the result
contains `foo: bar` and the two mandatory identity headers. -/
theorem c7_witness :
    ∃ hs,
      getHeaders (fun _ => "genai-js")
        { task := RpcTask.GET, apiKey := "k",
          requestOptions := some { customHeaders := some [("foo", "bar")] },
          _url := none } = Except.ok hs ∧
      ("x-goog-api-client", "genai-js") ∈ hs ∧
      ("x-goog-api-key", "k") ∈ hs ∧
      ("foo", "bar") ∈ hs := by
  obtain ⟨hs, h1, h2, h3, h4⟩ :=
    c7_headers_complete (fun _ => "genai-js")
      { task := RpcTask.GET, apiKey := "k",
        requestOptions := some { customHeaders := some [("foo", "bar")] },
        _url := none }
      (by decide)
  have h5 : lowerName "foo" = "foo" := rfl
  exact ⟨hs, h1, h2, h3, h5 ▸ h4 ("foo", "bar") (by decide)⟩

/-- C4 (code bug): `getSignal` given an already-aborted external signal
returns a signal that is NOT aborted at return (and that will never fire,
since no timeout is scheduled and the "abort" listener registered on the
already-aborted external signal is never invoked).  The claim says the
returned signal is already fired; the code never checks
`requestOptions.signal.aborted`, so it is not. -/
theorem c4_preaborted_signal_not_fired :
    ({ aborted := true } : AbortSignalState).aborted = true ∧
    getSignal (some { signal := some { aborted := true } }) =
      some { abortedAtReturn := false, timeoutScheduled := none, listensToExternal := true } :=
  ⟨rfl, rfl⟩

/-- C5 (amended): `getSignal` returns no signal exactly when no external
signal is present AND no nonnegative timeout is present.  A present but
negative timeout does not count: `requestOptions?.timeout >= 0` is false
for it, so with no external signal `getSignal` still returns
`undefined`. -/
theorem c5_getSignal_none_iff (ro : Option SingleRequestOptions) :
    getSignal ro = none ↔
      ((ro.bind (fun o => o.signal)).isSome = false ∧ timeoutNonneg ro = false) := by
  cases hs : (ro.bind (fun o => o.signal)).isSome <;>
    cases ht : timeoutNonneg ro <;>
      simp [getSignal, hs, ht]

/-- C5 counterexample: a timeout of -1 milliseconds is present in the
options, yet `getSignal` returns no signal — refuting the claim that a
controller is created whenever a timeout or a signal is present. -/
theorem c5_counterexample :
    ({ timeout := some (-1) } : SingleRequestOptions).timeout.isSome = true ∧
    getSignal (some ({ timeout := some (-1) } : SingleRequestOptions)) = none :=
  ⟨rfl, rfl⟩

/-- C6 (amended): `makeServerRequest` builds a descriptor whose method is
`taskToMethod` of the task, whose headers are the given collection, whose
body is the supplied one exactly when it is supplied AND truthy (any
blob, or a nonempty string — `if (body)` drops an empty-string body), and
whose signal is exactly what `getSignal` computed; it then invokes the
transport through `makeRequest` with the stringified URL and returns the
transport's result unchanged. -/
theorem c6_dispatch {ρ : Type} (url : ServerRequestUrl) (st : URLState)
    (h : url._url = some st) (headers : MHeaders) (body : Option ReqBody)
    (fetchFn : String → RequestInitM → ρ) :
    makeServerRequest url headers body fetchFn =
      some (fetchFn (renderURL st)
        { method := taskToMethod url.task
          headers := headers
          body :=
            match body with
            | some b => if bodyTruthy b then some b else none
            | none => none
          signal := getSignal url.requestOptions }) := by
  unfold makeServerRequest makeRequest ServerRequestUrl.toString
  rw [h]
  cases body with
  | none => cases hg : getSignal url.requestOptions <;> simp [hg]
  | some b =>
    cases hb : bodyTruthy b <;>
      cases hg : getSignal url.requestOptions <;>
        simp [hb, hg]

/-- C6 witness: with a stub transport that records its arguments, the
dispatcher passes the stringified URL and the descriptor with the looked
up method POST, the given headers, the supplied (truthy) body, and no
signal, and its return value comes back unchanged. -/
theorem c6_witness :
    makeServerRequest
      { task := RpcTask.UPLOAD, apiKey := "k", requestOptions := none,
        _url := some
          { href := "https://generativelanguage.googleapis.com/upload/v1beta/files",
            params := [] } }
      [("x-goog-api-key", "k")] (some (ReqBody.str "data")) (fun s ri => (s, ri)) =
      some ("https://generativelanguage.googleapis.com/upload/v1beta/files",
        { method := "POST", headers := [("x-goog-api-key", "k")],
          body := some (ReqBody.str "data"), signal := none }) := by
  rw [c6_dispatch _
    { href := "https://generativelanguage.googleapis.com/upload/v1beta/files", params := [] }
    rfl]
  rfl

/-- C6 counterexample: an empty-string body is supplied, yet the built
descriptor carries no body (`if (body)` treats `""` as falsy) — refuting
the claim that the descriptor contains the body exactly when one was
supplied. -/
theorem c6_counterexample :
    makeServerRequest
      { task := RpcTask.CREATE, apiKey := "k", requestOptions := none,
        _url := some
          { href := "https://generativelanguage.googleapis.com/v1beta/files", params := [] } }
      [] (some (ReqBody.str "")) (fun s ri => (s, ri)) =
      some ("https://generativelanguage.googleapis.com/v1beta/files",
        { method := "POST", headers := [], body := none, signal := none }) :=
  rfl

/-- C2: a constructed `CachedContentUrl` stringifies to
`{baseUrl}/{apiVersion}/cachedContents` and a constructed
`FilesRequestUrl` to `{baseUrl}/{apiVersion}/files`, with baseUrl and
apiVersion falling back to the default constants when not overridden, and
with an `/upload` segment before the version segment exactly when the
task is UPLOAD. -/
theorem c2_url_construction (task : RpcTask) (apiKey : String)
    (ro : Option SingleRequestOptions) :
    (∀ u, CachedContentUrl.make task apiKey ro = some u →
      u.toString =
        some (jsOr (ro.bind (fun o => o.baseUrl)) DEFAULT_BASE_URL ++
          ("/" ++ jsOr (ro.bind (fun o => o.apiVersion)) DEFAULT_API_VERSION ++
            "/cachedContents"))) ∧
    (∀ u, FilesRequestUrl.make task apiKey ro = some u →
      u.toString =
        some ((if task = RpcTask.UPLOAD
            then jsOr (ro.bind (fun o => o.baseUrl)) DEFAULT_BASE_URL ++ "/upload"
            else jsOr (ro.bind (fun o => o.baseUrl)) DEFAULT_BASE_URL) ++
          ("/" ++ jsOr (ro.bind (fun o => o.apiVersion)) DEFAULT_API_VERSION ++
            "/files"))) := by
  constructor
  · intro u hu
    simp only [CachedContentUrl.make] at hu
    rw [Option.map_eq_some'] at hu
    obtain ⟨st, hst, rfl⟩ := hu
    unfold newURL at hst
    split at hst
    · cases hst
      simp [ServerRequestUrl.toString, renderURL, renderQuery]
    · cases hst
  · intro u hu
    simp only [FilesRequestUrl.make] at hu
    rw [Option.map_eq_some'] at hu
    obtain ⟨st, hst, rfl⟩ := hu
    unfold newURL at hst
    by_cases ht : task = RpcTask.UPLOAD
    · rw [if_pos ht] at hst
      rw [if_pos ht]
      split at hst
      · cases hst
        simp [ServerRequestUrl.toString, renderURL, renderQuery]
      · cases hst
    · rw [if_neg ht] at hst
      rw [if_neg ht]
      split at hst
      · cases hst
        simp [ServerRequestUrl.toString, renderURL, renderQuery]
      · cases hst

/-- C2 witness: with default options, a GET `CachedContentUrl`
stringifies to the default base, version and resource path, and an UPLOAD
`FilesRequestUrl` carries the extra `/upload` segment. -/
theorem c2_witness :
    (∃ u, CachedContentUrl.make RpcTask.GET "k" none = some u ∧
      u.toString =
        some "https://generativelanguage.googleapis.com/v1beta/cachedContents") ∧
    (∃ u, FilesRequestUrl.make RpcTask.UPLOAD "k" none = some u ∧
      u.toString =
        some "https://generativelanguage.googleapis.com/upload/v1beta/files") := by
  constructor
  · obtain ⟨u, hu⟩ : ∃ u, CachedContentUrl.make RpcTask.GET "k" none = some u := ⟨_, rfl⟩
    refine ⟨u, hu, ?_⟩
    rw [(c2_url_construction RpcTask.GET "k" none).1 u hu]
    rfl
  · obtain ⟨u, hu⟩ : ∃ u, FilesRequestUrl.make RpcTask.UPLOAD "k" none = some u := ⟨_, rfl⟩
    refine ⟨u, hu, ?_⟩
    rw [(c2_url_construction RpcTask.UPLOAD "k" none).2 u hu]
    rfl

/-- C8: calling `appendParam` twice with the same key appends two query
entries: the parameter list gets both pairs appended in order (earlier
entries kept), and on a URL with no previous parameters the rendered
query string lists `k=v` twice. -/
theorem c8_appendParam_repeatable (u : ServerRequestUrl) (st : URLState)
    (h : u._url = some st) (k v : String) :
    ∃ u2, (u.appendParam k v).bind (fun x => x.appendParam k v) = some u2 ∧
      u2._url = some { st with params := st.params ++ [(k, v), (k, v)] } ∧
      (st.params = [] →
        u2.toString =
          some (st.href ++
            ("?" ++ String.intercalate "&" [k ++ "=" ++ v, k ++ "=" ++ v]))) := by
  obtain ⟨href, params⟩ := st
  refine ⟨{ u with _url := some { href := href, params := params ++ [(k, v), (k, v)] } },
    ?_, rfl, ?_⟩
  · simp [ServerRequestUrl.appendParam, h]
  · intro hp
    simp only at hp
    subst hp
    simp [ServerRequestUrl.toString, renderURL, renderQuery, String.intercalate]

/-- C8 witness: appending `k=v` twice to a fresh cached-content URL with
no parameters yields the query string `?k=v&k=v`. -/
theorem c8_witness :
    ∃ u2,
      (({ task := RpcTask.GET, apiKey := "k", requestOptions := none,
          _url := some
            { href := "https://generativelanguage.googleapis.com/v1beta/cachedContents",
              params := [] } } : ServerRequestUrl).appendParam "k" "v").bind
          (fun x => x.appendParam "k" "v") = some u2 ∧
      u2._url = some
        { href := "https://generativelanguage.googleapis.com/v1beta/cachedContents",
          params := [("k", "v"), ("k", "v")] } ∧
      u2.toString =
        some "https://generativelanguage.googleapis.com/v1beta/cachedContents?k=v&k=v" := by
  obtain ⟨u2, h1, h2, h3⟩ :=
    c8_appendParam_repeatable
      { task := RpcTask.GET, apiKey := "k", requestOptions := none,
        _url := some
          { href := "https://generativelanguage.googleapis.com/v1beta/cachedContents",
            params := [] } }
      { href := "https://generativelanguage.googleapis.com/v1beta/cachedContents",
        params := [] }
      rfl "k" "v"
  refine ⟨u2, h1, ?_, ?_⟩
  · rw [h2]
    rfl
  · rw [h3 rfl]
    rfl

/-- C9: every URL object produced by the `CachedContentUrl` or
`FilesRequestUrl` constructor (the instances on which the path/parameter
mutations and stringification are invoked) has its internal URL state
fully initialized: `_url` is assigned, and `appendPath`, `appendParam`
and `toString` all succeed on it. -/
theorem c9_url_state_initialized (task : RpcTask) (apiKey : String)
    (ro : Option SingleRequestOptions) (u : ServerRequestUrl)
    (h : CachedContentUrl.make task apiKey ro = some u ∨
         FilesRequestUrl.make task apiKey ro = some u) :
    u._url.isSome = true ∧
    (∀ p, (u.appendPath p).isSome = true) ∧
    (∀ k v, (u.appendParam k v).isSome = true) ∧
    u.toString.isSome = true := by
  have hsome : u._url.isSome = true := by
    rcases h with h | h
    · simp only [CachedContentUrl.make] at h
      rw [Option.map_eq_some'] at h
      obtain ⟨st, _, rfl⟩ := h
      rfl
    · simp only [FilesRequestUrl.make] at h
      rw [Option.map_eq_some'] at h
      obtain ⟨st, _, rfl⟩ := h
      rfl
  obtain ⟨st, hst⟩ := Option.isSome_iff_exists.mp hsome
  refine ⟨hsome, fun p => ?_, fun k v => ?_, ?_⟩ <;>
    simp [ServerRequestUrl.appendPath, ServerRequestUrl.appendParam,
      ServerRequestUrl.toString, hst]

/-- C9 witness: the default GET cached-content URL is constructed with
its state initialized and all operations defined on it. -/
theorem c9_witness :
    ∃ u, CachedContentUrl.make RpcTask.GET "k" none = some u ∧
      u._url.isSome = true ∧ (u.appendPath "abc").isSome = true ∧
      (u.appendParam "k" "v").isSome = true ∧ u.toString.isSome = true := by
  obtain ⟨u, hu⟩ : ∃ u, CachedContentUrl.make RpcTask.GET "k" none = some u := ⟨_, rfl⟩
  obtain ⟨h1, h2, h3, h4⟩ := c9_url_state_initialized RpcTask.GET "k" none u (Or.inl hu)
  exact ⟨u, hu, h1, h2 "abc", h3 "k" "v", h4⟩

end GenAIRequest
